import Mathlib

/-
Verification development for the NPbot repository.

The Python sources under scrutiny are embedded shallowly:
  * Python strings are modelled as Lean String values (sequences of Unicode
    characters, matching Python code-point indexing); character-level work is
    done on the underlying List Char.
  * Python floats that only ever hold decimally-written values and are
    compared against decimal thresholds are modelled as rationals.
  * Fallible code (regex searches, float parsing, urlparse) returns Option.
  * I/O boundaries (the vector index, the LLM oracle, the scheme store, the
    fetched HTML page) are passed in as explicit values, so each embedded
    function is a pure function of its inputs.
-/

namespace NPbot

attribute [local semireducible] Rat.add Rat.sub Rat.mul Rat.inv Rat.ofScientific

/-! ## Python character / string primitives -/

/-- Characters treated as whitespace by Python str.strip / str.split and by
the re module's whitespace class for text patterns (ASCII whitespace plus the
Unicode space characters). -/
def pySpaceChars : List Char :=
  [' ', '\t', '\n', '\r', '\x0b', '\x0c',
   '\x1c', '\x1d', '\x1e', '\x1f', '\x85', '\xa0',
   ' ', ' ', ' ', ' ', ' ', ' ', ' ',
   ' ', ' ', ' ', ' ', ' ',
   ' ', ' ', ' ', ' ', '　']

def isPySpace (c : Char) : Bool := pySpaceChars.contains c

/-- Python str.strip() with no argument: remove leading and trailing
whitespace. -/
def pyStripList (l : List Char) : List Char :=
  ((l.dropWhile isPySpace).reverse.dropWhile isPySpace).reverse

def pyStrip (s : String) : String := String.mk (pyStripList s.data)

/-- Python str.lower() restricted to ASCII letters (all the strings the
embedded code compares after lowering are ASCII). -/
def pyLowerChar (c : Char) : Char :=
  if 'A' ≤ c ∧ c ≤ 'Z' then Char.ofNat (c.toNat + 32) else c

def pyLowerList (l : List Char) : List Char := l.map pyLowerChar

def pyLower (s : String) : String := String.mk (pyLowerList s.data)

/-- Bool-valued infix test on lists. -/
def listInfix (needle : List Char) : List Char → Bool
  | [] => needle.isPrefixOf []
  | c :: t => needle.isPrefixOf (c :: t) || listInfix needle t

/-- Python substring containment: needle in haystack. -/
def strContains (hay needle : String) : Bool :=
  listInfix needle.data hay.data

/-- Python str.split() with no argument: split on whitespace runs, dropping
empty pieces. -/
def pySplitWsAux : List Char → List Char → List (List Char)
  | [], acc => if acc = [] then [] else [acc.reverse]
  | c :: t, acc =>
      if isPySpace c then
        if acc = [] then pySplitWsAux t [] else acc.reverse :: pySplitWsAux t []
      else pySplitWsAux t (c :: acc)

def pySplitWs (s : String) : List String :=
  (pySplitWsAux s.data []).map String.mk

/-- Python str.split(sep) for a single-character separator: keeps empty
pieces. -/
def pySplitOnAux (sep : Char) : List Char → List Char → List (List Char)
  | [], acc => [acc.reverse]
  | c :: t, acc =>
      if c = sep then acc.reverse :: pySplitOnAux sep t []
      else pySplitOnAux sep t (c :: acc)

def pySplitOn (s : String) (sep : Char) : List String :=
  (pySplitOnAux sep s.data []).map String.mk

/-- Python str.join with a single-space separator. -/
def joinSpace : List String → String
  | [] => ""
  | [s] => s
  | s :: t => s ++ " " ++ joinSpace t

def isDigitChar (c : Char) : Bool := '0' ≤ c ∧ c ≤ '9'

def digitsToNat (l : List Char) : Nat :=
  l.foldl (fun n c => 10 * n + (c.toNat - 48)) 0

/-- Python float() applied to a string consisting of digits and at most one
decimal point (the only shapes produced by the regex groups below once commas
are removed): returns none (ValueError) when no digit is present. -/
def pyFloat (l : List Char) : Option ℚ :=
  let intPart := l.takeWhile isDigitChar
  let rest := l.drop intPart.length
  match rest with
  | [] => if intPart = [] then none else some (mkRat (digitsToNat intPart) 1)
  | '.' :: frac =>
      if frac.all isDigitChar ∧ (intPart ≠ [] ∨ frac ≠ []) then
        some (mkRat (digitsToNat (intPart ++ frac)) (10 ^ frac.length))
      else none
  | _ => none

/-! ## URL validator (src/scraper/url_validator.py, src/config.py)

urllib.parse.urlsplit is embedded to the extent validate_url exercises it
(netloc extraction, CPython 3.10 line): strip C0 controls/space from both
ends, drop every tab/CR/LF, strip a scheme prefix, and if the remainder
starts with "//" take the netloc up to the first of '/', '?', '#'; a netloc
with unbalanced square brackets raises ValueError, modelled as none. -/

def ALLOWED_DOMAINS : List String :=
  ["mf.nipponindiaim.com", "nipponindiaim.com", "amfiindia.com", "sebi.gov.in"]

def isC0OrSpace (c : Char) : Bool := c.toNat ≤ 32

def schemeChars : List Char :=
  "abcdefghijklmnopqrstuvwxyzABCDEFGHIJKLMNOPQRSTUVWXYZ0123456789+-.".data

/-- Scheme removal step of urlsplit: if the first ':' occurs at position
i > 0 and everything before it is a scheme character, drop through the ':'. -/
def dropScheme (l : List Char) : List Char :=
  let i := l.findIdx (fun c => c == ':')
  if 0 < i ∧ i < l.length ∧ (l.take i).all (fun c => schemeChars.contains c) then
    l.drop (i + 1)
  else l

def netlocDelim (c : Char) : Bool := c == '/' || c == '?' || c == '#'

/-- The netloc urlsplit reports for a URL string, or none when urlsplit
raises ValueError (unbalanced brackets in the netloc). -/
def urlsplitNetloc (url : String) : Option String :=
  let l := ((url.data.dropWhile isC0OrSpace).reverse.dropWhile isC0OrSpace).reverse
  let l := l.filter (fun c => ¬(c = '\t' ∨ c = '\r' ∨ c = '\n'))
  let l := dropScheme l
  match l with
  | '/' :: '/' :: rest =>
      let nl := rest.takeWhile (fun c => ¬ netlocDelim c)
      if (nl.contains '[' ∧ ¬ nl.contains ']') ∨
         (nl.contains ']' ∧ ¬ nl.contains '[') then none
      else some (String.mk nl)
  | _ => some ""

/-- src/scraper/url_validator.py validate_url: the lowercased netloc must
equal an allowed domain or end with '.' followed by one; any exception gives
False. -/
def validate_url (url : String) : Bool :=
  match urlsplitNetloc url with
  | none => false
  | some nl =>
      let domain := pyLowerList nl.data
      ALLOWED_DOMAINS.any (fun d =>
        domain == d.data || ('.' :: d.data).isSuffixOf domain)

/-- Modelled from the spec's wording for comparison: the host component of a
URL, i.e. the netloc with userinfo (up to the last '@') and any ':port'
removed, lowercased — what urllib exposes as the hostname attribute. -/
def hostOf (url : String) : Option String :=
  (urlsplitNetloc url).map (fun nl =>
    let hi := (nl.data.reverse.takeWhile (fun c => c ≠ '@')).reverse
    let host :=
      if hi.contains '[' then
        ((hi.dropWhile (fun c => c ≠ '[')).drop 1).takeWhile (fun c => c ≠ ']')
      else hi.takeWhile (fun c => c ≠ ':')
    String.mk (pyLowerList host))

/-! ## Regex scanning primitives

re.search is leftmost-match: a pattern-at-position matcher is tried at every
start position from the left. The patterns in this repository are built from
literals, character classes and short alternations whose adjacent pieces
consume disjoint character sets, so greedy matching without backtracking is
exact for them. -/

/-- Leftmost match: try the at-position matcher at every suffix. -/
def scanFirst (f : List Char → Option α) : List Char → Option α
  | [] => f []
  | c :: t =>
      match f (c :: t) with
      | some r => some r
      | none => scanFirst f t

/-- Case-insensitive literal prefix (re.I semantics on ASCII letters). -/
def stripPrefixCI : List Char → List Char → Option (List Char)
  | [], l => some l
  | _ :: _, [] => none
  | p :: ps, c :: cs =>
      if pyLowerChar c = pyLowerChar p then stripPrefixCI ps cs else none

/-- Case-sensitive literal prefix. -/
def stripPrefixCS (pat l : List Char) : Option (List Char) :=
  if pat.isPrefixOf l then some (l.drop pat.length) else none

/-! ## Query answerer helper predicates (src/backend/query_answerer.py) -/

/-- Matcher at one position for the pattern https?://[^\s]+ used by
_has_source_url (case-sensitive). -/
def httpAt (l : List Char) : Option Unit :=
  (stripPrefixCS "http".data l).bind fun l1 =>
    let l2 := match l1 with
      | 's' :: t => t
      | _ => l1
    (stripPrefixCS "://".data l2).bind fun l3 =>
      match l3 with
      | c :: _ => if isPySpace c then none else some ()
      | [] => none

/-- QueryAnswerer._has_source_url: the answer contains an http(s) URL. -/
def has_source_url (answer : String) : Bool :=
  (scanFirst httpAt answer.data).isSome

def fake_indicators : List String :=
  ["demo", "example", "sample", "test data", "placeholder",
   "xxx", "000.00", "not available", "n/a", "tbd"]

def containsFakeAux (al : String) : List String → Bool
  | [] => false
  | ind :: rest =>
      if strContains al ind then
        if ind = "not available" ∨ ind = "n/a" then
          if strContains al "demo" ∨ strContains al "example" then true
          else containsFakeAux al rest
        else true
      else containsFakeAux al rest

/-- QueryAnswerer._contains_fake_data: scan the lowercased answer for the
placeholder denylist; "not available" and "n/a" only count when "demo" or
"example" also occurs. -/
def contains_fake_data (answer : String) : Bool :=
  containsFakeAux (pyLower answer) fake_indicators

/-- One formatted retrieval hit as RAGSystem.search returns it: the document
text, the source_url and scheme_code metadata entries (empty string when the
key is absent, matching dict.get defaults) and the optional distance. -/
structure SearchResult where
  document : String
  source_url : String
  scheme_code : String
  distance : Option ℚ
deriving DecidableEq, Repr

def distLt (d : Option ℚ) (x : ℚ) : Bool :=
  match d with
  | some v => decide (v < x)
  | none => false

def distGt (d : Option ℚ) (x : ℚ) : Bool :=
  match d with
  | some v => decide (x < v)
  | none => false

/-- QueryAnswerer._determine_confidence, in source order: the "high" test
(distance known and < 0.3, answer cites a URL, guard passes), then the
two-result "medium" test, then the distance > 0.7 "low" test, then "medium". -/
def determine_confidence (results : List SearchResult) (answer : String) : String :=
  match results with
  | [] => "low"
  | top :: rest =>
      if distLt top.distance (3/10) && has_source_url answer &&
          !contains_fake_data answer then "high"
      else if 2 ≤ (top :: rest).length then "medium"
      else if distGt top.distance (7/10) then "low"
      else "medium"

/-! ## Scheme-name extraction (QueryAnswerer._extract_scheme_name) -/

/-- Consume one-or-more whitespace greedily (the regex piece \s+). -/
def ws1 (l : List Char) : Option (List Char) :=
  match l with
  | c :: t => if isPySpace c then some (t.dropWhile isPySpace) else none
  | [] => none

/-- Character class [A-Za-z\s]. -/
def schemeNameClassChar (c : Char) : Bool :=
  ('A' ≤ c ∧ c ≤ 'Z') || ('a' ≤ c ∧ c ≤ 'z') || isPySpace c

/-- The tail alternation (?:\s+Fund|\?|$) of the scheme-name pattern; with no
MULTILINE flag, $ matches at the end of the string or just before a trailing
newline. -/
def nipponTailOk (l : List Char) : Bool :=
  (match ws1 l with
   | some l2 => (stripPrefixCI "fund".data l2).isSome
   | none => false) ||
  (match l with
   | '?' :: _ => true
   | _ => false) ||
  (match l with
   | [] => true
   | ['\n'] => true
   | _ => false)

/-- Lazy expansion of ([A-Za-z\s]+?): having consumed acc (reversed, at least
one char), stop at the first point where the tail matches, else extend by one
class character. -/
def nipponLazy (acc : List Char) (l : List Char) : Option (List Char) :=
  if nipponTailOk l then some acc.reverse
  else
    match l with
    | c :: t => if schemeNameClassChar c then nipponLazy (c :: acc) t else none
    | [] => none

/-- At-position matcher for the pattern
Nippon\s+India\s+([A-Za-z\s]+?)(?:\s+Fund|\?|$) with re.I; returns group 1. -/
def nipponAt (l : List Char) : Option (List Char) :=
  (stripPrefixCI "nippon".data l).bind fun l1 =>
  (ws1 l1).bind fun l2 =>
  (stripPrefixCI "india".data l2).bind fun l3 =>
  (ws1 l3).bind fun l4 =>
  match l4 with
  | c :: t => if schemeNameClassChar c then nipponLazy [c] t else none
  | [] => none

def scheme_keywords : List String := ["fund", "scheme", "plan"]

/-- The keyword-window fallback of _extract_scheme_name: the first word with
positive index whose lowercase form is in the keyword set and whose window of
up to four words contains "nippon" yields that window. -/
def schemeNameWindow (words : List String) : Option String :=
  (List.range words.length).findSome? fun i =>
    match words.get? i with
    | none => none
    | some w =>
        if 0 < i ∧ scheme_keywords.contains (pyLower w) then
          let potential := joinSpace ((words.drop (i - 3)).take (i + 1 - (i - 3)))
          if strContains (pyLower potential) "nippon" then some potential else none
        else none

/-- QueryAnswerer._extract_scheme_name. -/
def extract_scheme_name (query : String) : Option String :=
  match scanFirst nipponAt query.data with
  | some grp => some ("Nippon India " ++ pyStrip (String.mk grp) ++ " Fund")
  | none => schemeNameWindow (pySplitWs query)

/-! ## Fallback answer construction (QueryAnswerer._construct_fallback_answer)

The function only reads the top result's document, which is passed in
directly. -/

def digitCommaChar (c : Char) : Bool := isDigitChar c || c = ','

/-- Parse the group ([\d,]+\.?\d*) at the front of l, greedily. -/
def numGroupAfter (l : List Char) : Option (List Char × List Char) :=
  let g1 := l.takeWhile digitCommaChar
  if g1 = [] then none
  else
    match l.drop g1.length with
    | '.' :: t =>
        let g2 := t.takeWhile isDigitChar
        some (g1 ++ '.' :: g2, t.drop g2.length)
    | r1 => some (g1, r1)

/-- At-position matcher for Latest NAV: ₹?([\d,]+\.?\d*) with re.I. -/
def latestNavAt (l : List Char) : Option (List Char) :=
  (stripPrefixCI "latest nav: ".data l).bind fun l1 =>
    let l2 := match l1 with
      | '₹' :: t => t
      | _ => l1
    (numGroupAfter l2).map Prod.fst

/-- At-position matcher for the NAV Date pattern (the literal "NAV Date: "
with re.I, then one-or-more digits, slashes or hyphens, captured). -/
def navDateAt (l : List Char) : Option (List Char) :=
  (stripPrefixCI "nav date: ".data l).bind fun l1 =>
    let g := l1.takeWhile (fun c => isDigitChar c || c = '/' || c = '-')
    if g = [] then none else some g

/-- At-position matcher for Scheme Name: ([^\n]+), case-sensitive. -/
def schemeNameAt (l : List Char) : Option (List Char) :=
  (stripPrefixCS "Scheme Name: ".data l).bind fun l1 =>
    let g := l1.takeWhile (fun c => c ≠ '\n')
    if g = [] then none else some g

/-- Generic branch: the first of the document's first two '.'-sentences that
contains some lowercased query word. -/
def genericSentencePart (query top_doc : String) : List String :=
  let sentences := (pySplitOn top_doc '.').take 2
  match sentences.find? (fun s =>
      (pySplitWs (pyLower query)).any (fun kw => strContains (pyLower s) kw)) with
  | some s => [pyStrip s ++ "."]
  | none => []

/-- QueryAnswerer._construct_fallback_answer on the top document. -/
def construct_fallback_answer (query top_doc source_url : String) : String :=
  let ql := pyLower query
  let navParts : List String :=
    if strContains ql "nav" || strContains ql "net asset value" then
      match scanFirst latestNavAt top_doc.data with
      | some nv =>
          let nd := match scanFirst navDateAt top_doc.data with
            | some d => String.mk d
            | none => "latest available date"
          ["The latest NAV is ₹" ++ String.mk nv ++ " as of " ++ nd ++ "."]
      | none => []
    else []
  let nameParts : List String :=
    if strContains ql "name" || strContains ql "what is" then
      match scanFirst schemeNameAt top_doc.data with
      | some nm => ["The scheme name is " ++ pyStrip (String.mk nm) ++ "."]
      | none => []
    else []
  let parts := navParts ++ nameParts
  let parts := if parts = [] then genericSentencePart query top_doc else parts
  let parts := if parts = [] then
      ["Based on the available data from the official website:"] else parts
  joinSpace parts ++ "\n\nSource: " ++ source_url

/-! ## The query orchestrator (QueryAnswerer.answer_query,
query_backend.answer_query) -/

structure SchemeMetadata where
  scheme_code : String
  source_url : String
deriving DecidableEq, Repr

/-- The parts of a stored SchemeData record that answer_query reads. A None
or empty field_sources dict (both falsy in Python) is the empty list. -/
structure SchemeData where
  metadata : SchemeMetadata
  field_sources : List (String × String)
deriving DecidableEq, Repr

structure QueryAnswer where
  answer : String
  source_url : String
  scheme_code : String
  confidence : String
deriving DecidableEq, Repr

/-- The I/O environment of one answer_query call: what RAGSystem.search
returns for the query, what DataLoader.get_scheme_by_name returns per name,
and the raw oracle reply of RAGSystem.generate_answer — none meaning the
call raised. -/
structure Env where
  searchResults : List SearchResult
  schemeLookup : String → Option SchemeData
  oracle : Option String

def shortQueryAnswer : QueryAnswer :=
  ⟨"Please provide a valid query about Nippon India Mutual Fund schemes.",
   "", "", "low"⟩

def noResultsAnswer : QueryAnswer :=
  ⟨"I don\x27t have information about that in my database. Please ensure the data has been scraped from the official Nippon India Mutual Fund website.",
   "", "", "low"⟩

def invalidSourceAnswer : QueryAnswer :=
  ⟨"I cannot provide an answer as the source URL is invalid. This may indicate data integrity issues.",
   "", "", "low"⟩

/-- The integrity-warning refusal substituted when the hallucination guard
fires; the scheme code resolved so far is kept, the source URL is emptied. -/
def integrityAnswer (scheme_code : String) : QueryAnswer :=
  ⟨"I cannot provide an answer as the data may not be from official sources. Please verify the data has been scraped from the official Nippon India Mutual Fund website.",
   "", scheme_code, "low"⟩

/-- Lines 55-62 of answer_query: if the top result's source URL is missing or
invalid, scan all results in rank order for the first nonempty valid one. -/
def pickSourceUrl (results : List SearchResult) (su : String) : String :=
  if su = "" ∨ validate_url su = false then
    match results.find? (fun r => r.source_url != "" && validate_url r.source_url) with
    | some r => r.source_url
    | none => su
  else su

def field_priority : List String := ["nav", "scheme_page", "category"]

def dictLookup (k : String) : List (String × String) → Option String
  | [] => none
  | (k', v) :: t => if k' = k then some v else dictLookup k t

/-- The for-loop over field_sources: first of nav, scheme_page, category that
is present and validates. -/
def firstValidField (fs : List (String × String)) : Option String :=
  field_priority.findSome? fun f =>
    match dictLookup f fs with
    | some u => if validate_url u then some u else none
    | none => none

/-- The body of the scheme branch once a stored record was found: take its
scheme code; with truthy field_sources replace the source URL only by a
validated prioritized field source, otherwise copy the record's metadata
source URL (unvalidated). -/
def schemeAdjustScheme (scheme : SchemeData) (su : String) : String × String :=
  if scheme.field_sources ≠ [] then
    match firstValidField scheme.field_sources with
    | some u => (u, scheme.metadata.scheme_code)
    | none => (su, scheme.metadata.scheme_code)
  else (scheme.metadata.source_url, scheme.metadata.scheme_code)

def schemeAdjustLookup (env : Env) (name su sc : String) : String × String :=
  match env.schemeLookup name with
  | none => (su, sc)
  | some scheme => schemeAdjustScheme scheme su

/-- Lines 75-91 of answer_query: resolve a scheme name from the query; on a
store hit, adjust the source URL and scheme code from the stored record. -/
def schemeAdjust (env : Env) (q su sc : String) : String × String :=
  match extract_scheme_name q with
  | none => (su, sc)
  | some name => schemeAdjustLookup env name su sc

/-- RAGSystem.generate_answer post-processing of the raw oracle text: append
a Source line when no citation marker is present. -/
def generate_answer_post (raw su : String) : String :=
  if !strContains (pyLower raw) "source:" && !strContains (pyLower raw) "source url" then
    raw ++ "\n\nSource: " ++ su
  else raw

/-- Lines 93-103: the candidate answer text, from the oracle when the call
succeeds, otherwise from the fallback constructor. -/
def candidateAnswer (oracle : Option String) (q top_doc su : String) : String :=
  match oracle with
  | some raw => generate_answer_post raw su
  | none => construct_fallback_answer q top_doc su

/-- Lines 105-126 of answer_query: the hallucination guard over the
candidate answer, the Source-line append when no URL is cited, and the
confidence computation over the search results. -/
def finishAnswer (results : List SearchResult) (su sc ans : String) : QueryAnswer :=
  if contains_fake_data ans then integrityAnswer sc
  else
    let ans2 := if has_source_url ans then ans else ans ++ "\n\nSource: " ++ su
    ⟨ans2, su, sc, determine_confidence results ans2⟩

/-- The body of answer_query once the search results are known nonempty. -/
def answerWithTop (env : Env) (q : String) (top : SearchResult)
    (rest : List SearchResult) : QueryAnswer :=
  let su0 := pickSourceUrl (top :: rest) top.source_url
  if su0 = "" ∨ validate_url su0 = false then invalidSourceAnswer
  else
    let pair := schemeAdjust env q su0 top.scheme_code
    finishAnswer (top :: rest) pair.1 pair.2
      (candidateAnswer env.oracle q top.document pair.1)

/-- The branch on the retrieval result list. -/
def answerWithResults (env : Env) (q : String) : List SearchResult → QueryAnswer
  | [] => noResultsAnswer
  | top :: rest => answerWithTop env q top rest

/-- QueryAnswerer.answer_query. -/
def answer_query (env : Env) (query : String) : QueryAnswer :=
  if query = "" ∨ (pyStrip query).length < 3 then shortQueryAnswer
  else answerWithResults env (pyStrip query) env.searchResults

/-- query_backend.answer_query: constructing the QueryAnswerer may raise (the
environment is then none, with the exception text); any such failure maps to
a low-confidence error answer. -/
def backend_answer_query (init : Option Env) (errText query : String) : QueryAnswer :=
  match init with
  | some env => answer_query env query
  | none => ⟨"Error processing query: " ++ errText, "", "", "low"⟩

/-! ## NAV cross-validation (src/scraper/validator.py _validate_nav)

The live page enters as its flattened text (soup.get_text()). -/

/-- Non-overlapping findall: fuel-indexed scan that restarts after each
match's consumed span (every pattern here consumes at least one character,
and the fuel is the text length, which always suffices). -/
def scanAllF (f : List Char → Option (α × Nat)) : Nat → List Char → List α
  | 0, _ => []
  | _, [] => []
  | fuel + 1, c :: t =>
      match f (c :: t) with
      | some (a, k) => a :: scanAllF f fuel ((c :: t).drop (max k 1))
      | none => scanAllF f fuel t

def scanAll (f : List Char → Option (α × Nat)) (l : List Char) : List α :=
  scanAllF f l.length l

/-- At-position matcher for the two NAV collection patterns: a literal (with
re.I), then any run of ':' or whitespace, an optional currency sign, optional
whitespace, then the captured number group; returns the group and the
consumed length. -/
def navPatAt (lit : List Char) (l : List Char) : Option (List Char × Nat) :=
  (stripPrefixCI lit l).bind fun l1 =>
    let l2 := l1.dropWhile (fun c => c = ':' || isPySpace c)
    let l3 := match l2 with
      | '₹' :: t => t
      | _ => l2
    let l4 := l3.dropWhile isPySpace
    (numGroupAfter l4).map fun gr => (gr.1, l.length - gr.2.length)

def nav_patterns : List (List Char) := ["nav".data, "net asset value".data]

/-- The found_navs list: per pattern, all matches, keeping those whose
comma-stripped group parses as a float. -/
def collectNavs (page_text : String) : List ℚ :=
  (nav_patterns.map fun lit =>
    (scanAll (navPatAt lit) page_text.data).filterMap fun g =>
      pyFloat (g.filter (fun c => c ≠ ','))).flatten

/-- The dict _validate_nav returns (the keys it populates). -/
structure NavCheck where
  valid : Bool
  stored : ℚ
  found_on_page : Option ℚ
  reason : Option String
deriving DecidableEq, Repr

/-- The 1% relative-difference test of _validate_nav. -/
def navClose (stored v : ℚ) : Bool := |stored - v| / max stored v < 1/100

/-- _validate_nav: no NAV found is invalid; otherwise the first found value
within 1% relative difference makes the check valid, else invalid with the
first found value reported. -/
def validate_nav (stored_nav : ℚ) (page_text : String) : NavCheck :=
  let found_navs := collectNavs page_text
  if found_navs = [] then ⟨false, stored_nav, none, some "No NAV found on page"⟩
  else
    match found_navs.find? (fun v => navClose stored_nav v) with
    | some v => ⟨true, stored_nav, some v, none⟩
    | none => ⟨false, stored_nav, found_navs.head?, some "NAV mismatch"⟩

/-! ## AUM extraction (src/scraper/nippon_scraper.py _extract_aum)

The soup enters as its flattened text plus its tables, a table being a list
of rows and a row the list of its cells' stripped texts. -/

structure Soup where
  text : String
  tables : List (List (List String))
deriving Repr

/-- Ordered alternation (?:Cr|Crore|Lakh|L) with re.I; "Cr" is tried first,
so a "Crore" in the text matches as "Cr". Returns the consumed length. -/
def aumSuffix1 (l : List Char) : Option Nat :=
  if (stripPrefixCI "cr".data l).isSome then some 2
  else if (stripPrefixCI "lakh".data l).isSome then some 4
  else if (stripPrefixCI "l".data l).isSome then some 1
  else none

/-- Ordered alternation (?:Cr|Crore): "Cr" matches whenever "Crore" would. -/
def aumSuffix23 (l : List Char) : Option Nat :=
  if (stripPrefixCI "cr".data l).isSome then some 2 else none

/-- Common tail of the three AUM patterns after their literal part: ':' or
whitespace run, optional currency sign, whitespace, the captured number
group, whitespace, then the unit alternation. Returns (group 0, group 1)
where group 0 is the whole matched span of the position string l0. -/
def aumTail (suffix : List Char → Option Nat) (l0 l1 : List Char) :
    Option (List Char × List Char) :=
  let l2 := l1.dropWhile (fun c => c = ':' || isPySpace c)
  let l3 := match l2 with
    | '₹' :: t => t
    | _ => l2
  let l4 := l3.dropWhile isPySpace
  (numGroupAfter l4).bind fun gr =>
    let r2 := gr.2.dropWhile isPySpace
    (suffix r2).map fun k =>
      (l0.take (l0.length - (r2.length - k)), gr.1)

def aumPat1At (l : List Char) : Option (List Char × List Char) :=
  (stripPrefixCI "aum".data l).bind fun l1 => aumTail aumSuffix1 l l1

def aumPat2At (l : List Char) : Option (List Char × List Char) :=
  (stripPrefixCI "assets".data l).bind fun a =>
  (stripPrefixCI "under".data (a.dropWhile isPySpace)).bind fun b =>
  (stripPrefixCI "management".data (b.dropWhile isPySpace)).bind fun c =>
  aumTail aumSuffix23 l c

def aumPat3At (l : List Char) : Option (List Char × List Char) :=
  (stripPrefixCI "fund".data l).bind fun a =>
  (stripPrefixCI "size".data (a.dropWhile isPySpace)).bind fun b =>
  aumTail aumSuffix23 l b

/-- One iteration of the aum_patterns loop: leftmost match, parse the
comma-stripped group, divide by 100 when the matched span mentions lakh;
a float failure falls through to the next pattern (none). -/
def tryAumPattern (pat : List Char → Option (List Char × List Char))
    (text : List Char) : Option ℚ :=
  match scanFirst pat text with
  | some g =>
      match pyFloat (g.2.filter (fun c => c ≠ ',')) with
      | some v =>
          some (if strContains (String.mk (pyLowerList g.1)) "lakh" then v / 100 else v)
      | none => none
  | none => none

/-- One table row of the fallback scan: at least two cells, first-cell label
matching the AUM vocabulary, then the first number in the comma-stripped
second cell, with the lakh conversion keyed on the raw second cell. -/
def aumRow (cells : List String) : Option ℚ :=
  match cells with
  | c0 :: c1 :: _ =>
      let key := pyLower c0
      if strContains key "aum" || (strContains key "assets" && strContains key "management") then
        match scanFirst (fun l => (numGroupAfter l).map Prod.fst)
            (c1.data.filter (fun c => c ≠ ',')) with
        | some g =>
            match pyFloat g with
            | some v => some (if strContains (pyLower c1) "lakh" then v / 100 else v)
            | none => none
        | none => none
      else none
  | _ => none

/-- _extract_aum: the three text patterns in order, then the table rows in
order; null when nothing matches. -/
def extract_aum (soup : Soup) : Option ℚ :=
  match tryAumPattern aumPat1At soup.text.data with
  | some v => some v
  | none =>
      match tryAumPattern aumPat2At soup.text.data with
      | some v => some v
      | none =>
          match tryAumPattern aumPat3At soup.text.data with
          | some v => some v
          | none => soup.tables.flatten.findSome? aumRow

/-! ## Text chunking (src/storage/data_store.py create_text_chunks,
src/config.py)

A chunk id is the hashlib.md5 hexdigest of the UTF-8 encoding of
scheme_code_chunk_type_chunk_index. MD5 is implemented below over byte
lists, with 32-bit words as naturals reduced mod 2^32. The created_at
timestamp (wall clock) is outside the model. -/

def CHUNK_SIZE : Nat := 1000

def CHUNK_OVERLAP : Nat := 200

def utf8Char (c : Char) : List Nat :=
  let n := c.toNat
  if n < 128 then [n]
  else if n < 2048 then [192 + n / 64, 128 + n % 64]
  else if n < 65536 then [224 + n / 4096, 128 + (n / 64) % 64, 128 + n % 64]
  else [240 + n / 262144, 128 + (n / 4096) % 64, 128 + (n / 64) % 64, 128 + n % 64]

def utf8Encode (s : String) : List Nat := (s.data.map utf8Char).flatten

def M32 : Nat := 4294967296

def add32 (a b : Nat) : Nat := (a + b) % M32

def not32 (a : Nat) : Nat := 4294967295 - a

def rotl32 (x s : Nat) : Nat := ((x <<< s) % M32) ||| (x >>> (32 - s))

def md5K : List Nat :=
  [0xd76aa478, 0xe8c7b756, 0x242070db, 0xc1bdceee,
   0xf57c0faf, 0x4787c62a, 0xa8304613, 0xfd469501,
   0x698098d8, 0x8b44f7af, 0xffff5bb1, 0x895cd7be,
   0x6b901122, 0xfd987193, 0xa679438e, 0x49b40821,
   0xf61e2562, 0xc040b340, 0x265e5a51, 0xe9b6c7aa,
   0xd62f105d, 0x02441453, 0xd8a1e681, 0xe7d3fbc8,
   0x21e1cde6, 0xc33707d6, 0xf4d50d87, 0x455a14ed,
   0xa9e3e905, 0xfcefa3f8, 0x676f02d9, 0x8d2a4c8a,
   0xfffa3942, 0x8771f681, 0x6d9d6122, 0xfde5380c,
   0xa4beea44, 0x4bdecfa9, 0xf6bb4b60, 0xbebfbc70,
   0x289b7ec6, 0xeaa127fa, 0xd4ef3085, 0x04881d05,
   0xd9d4d039, 0xe6db99e5, 0x1fa27cf8, 0xc4ac5665,
   0xf4292244, 0x432aff97, 0xab9423a7, 0xfc93a039,
   0x655b59c3, 0x8f0ccc92, 0xffeff47d, 0x85845dd1,
   0x6fa87e4f, 0xfe2ce6e0, 0xa3014314, 0x4e0811a1,
   0xf7537e82, 0xbd3af235, 0x2ad7d2bb, 0xeb86d391]

def md5S : List Nat :=
  [7, 12, 17, 22, 7, 12, 17, 22, 7, 12, 17, 22, 7, 12, 17, 22,
   5, 9, 14, 20, 5, 9, 14, 20, 5, 9, 14, 20, 5, 9, 14, 20,
   4, 11, 16, 23, 4, 11, 16, 23, 4, 11, 16, 23, 4, 11, 16, 23,
   6, 10, 15, 21, 6, 10, 15, 21, 6, 10, 15, 21, 6, 10, 15, 21]

def md5F (i b c d : Nat) : Nat :=
  if i < 16 then (b &&& c) ||| (not32 b &&& d)
  else if i < 32 then (d &&& b) ||| (not32 d &&& c)
  else if i < 48 then b ^^^ c ^^^ d
  else c ^^^ (b ||| not32 d)

def md5G (i : Nat) : Nat :=
  if i < 16 then i
  else if i < 32 then (5 * i + 1) % 16
  else if i < 48 then (3 * i + 5) % 16
  else (7 * i) % 16

def md5Step (m : List Nat) (st : Nat × Nat × Nat × Nat) (i : Nat) :
    Nat × Nat × Nat × Nat :=
  let a := st.1
  let b := st.2.1
  let c := st.2.2.1
  let d := st.2.2.2
  let b2 := add32 b (rotl32
    (add32 (add32 a (md5F i b c d)) (add32 (md5K.getD i 0) (m.getD (md5G i) 0)))
    (md5S.getD i 0))
  (d, b2, b, c)

def md5Block (st0 : Nat × Nat × Nat × Nat) (m : List Nat) :
    Nat × Nat × Nat × Nat :=
  let st := (List.range 64).foldl (md5Step m) st0
  (add32 st0.1 st.1, add32 st0.2.1 st.2.1,
   add32 st0.2.2.1 st.2.2.1, add32 st0.2.2.2 st.2.2.2)

/-- Little-endian 32-bit words from a byte list. -/
def toWords : List Nat → List Nat
  | b0 :: b1 :: b2 :: b3 :: rest =>
      (b0 + 256 * b1 + 65536 * b2 + 16777216 * b3) :: toWords rest
  | _ => []

def toBlocksF : Nat → List Nat → List (List Nat)
  | 0, _ => []
  | _, [] => []
  | fuel + 1, l => toWords (l.take 64) :: toBlocksF fuel (l.drop 64)

def toBlocks (l : List Nat) : List (List Nat) := toBlocksF l.length l

def leBytes8 (n : Nat) : List Nat :=
  [n % 256, (n >>> 8) % 256, (n >>> 16) % 256, (n >>> 24) % 256,
   (n >>> 32) % 256, (n >>> 40) % 256, (n >>> 48) % 256, (n >>> 56) % 256]

/-- MD5 padding: a 0x80 byte, zeros to 56 mod 64, then the bit length as a
little-endian 64-bit quantity. -/
def md5Pad (msg : List Nat) : List Nat :=
  msg ++ 128 :: List.replicate ((119 - msg.length % 64) % 64) 0 ++
    leBytes8 ((8 * msg.length) % (2 ^ 64))

def wordLEBytes (w : Nat) : List Nat :=
  [w % 256, (w >>> 8) % 256, (w >>> 16) % 256, (w >>> 24) % 256]

def hexDigit (n : Nat) : Char :=
  if n < 10 then Char.ofNat (48 + n) else Char.ofNat (87 + n)

def byteHex (b : Nat) : List Char := [hexDigit (b / 16), hexDigit (b % 16)]

/-- hashlib.md5(bytes).hexdigest(). -/
def md5hex (msg : List Nat) : String :=
  let st := (toBlocks (md5Pad msg)).foldl md5Block
    (0x67452301, 0xefcdab89, 0x98badcfe, 0x10325476)
  String.mk (((wordLEBytes st.1 ++ wordLEBytes st.2.1 ++
    wordLEBytes st.2.2.1 ++ wordLEBytes st.2.2.2).map byteHex).flatten)

/-- The chunk id of create_text_chunks: md5 hexdigest of the encoded
f-string scheme_code underscore chunk_type underscore chunk_index. -/
def chunk_id_of (scheme_code chunk_type : String) (idx : Nat) : String :=
  md5hex (utf8Encode (scheme_code ++ "_" ++ chunk_type ++ "_" ++ toString idx))

/-- A TextChunk as create_text_chunks builds it (created_at omitted: wall
clock). -/
structure TextChunk where
  chunk_id : String
  scheme_code : String
  chunk_type : String
  content : String
  metadata : List (String × String)
  source_url : String
deriving DecidableEq, Repr

/-- The while-loop of create_text_chunks, fuel-indexed: none means the fuel
ran out with the loop still running. Each pass emits the slice
content[start:start+chunk_size] and continues at start + chunk_size -
overlap. -/
def chunkLoopF (scheme_code chunk_type source_url : String)
    (metadata : List (String × String)) (content : List Char)
    (chunk_size overlap : Nat) : Nat → Nat → Nat → Option (List TextChunk)
  | 0, _, _ => none
  | fuel + 1, start, idx =>
      if start < content.length then
        Option.map
          (fun rest =>
            ⟨chunk_id_of scheme_code chunk_type idx, scheme_code,
              chunk_type, String.mk ((content.drop start).take chunk_size),
              metadata, source_url⟩ :: rest)
          (chunkLoopF scheme_code chunk_type source_url metadata content
            chunk_size overlap fuel (start + chunk_size - overlap) (idx + 1))
      else some []

/-- create_text_chunks at the configured CHUNK_SIZE/CHUNK_OVERLAP; the fuel
content.length + 1 always suffices (proved below), so the default is never
taken. -/
def create_text_chunks (scheme_code content chunk_type source_url : String)
    (metadata : List (String × String)) : List TextChunk :=
  (chunkLoopF scheme_code chunk_type source_url metadata content.data
    CHUNK_SIZE CHUNK_OVERLAP (content.data.length + 1) 0 0).getD []

/-! ### Claim C1 -/

theorem contains_fake_of_flag (ans : String)
    (h : strContains (pyLower ans) "demo" = true ∨
         strContains (pyLower ans) "sample" = true) :
    contains_fake_data ans = true := by
  unfold contains_fake_data fake_indicators
  by_cases hd : strContains (pyLower ans) "demo" = true
  · simp [containsFakeAux, hd]
  · replace h : strContains (pyLower ans) "sample" = true := by tauto
    by_cases he : strContains (pyLower ans) "example" = true
    · simp [containsFakeAux, hd, he]
    · simp [containsFakeAux, hd, he, h]

/-- C1: when a query makes it past the length, retrieval and source-URL
guards, and the candidate answer text (built from the oracle reply, or from
the fallback constructor when the oracle raised) contains "demo" or "sample"
case-insensitively, answer_query returns exactly the integrity-warning
refusal — empty source_url, confidence low, the resolved scheme code kept —
and the flagged candidate text itself is not the returned answer. -/
theorem c1_hallucination_guard (env : Env) (query : String)
    (top : SearchResult) (rest : List SearchResult) (su0 su1 sc1 ans : String)
    (hq : ¬(query = "" ∨ (pyStrip query).length < 3))
    (hres : env.searchResults = top :: rest)
    (hsu0 : su0 = pickSourceUrl (top :: rest) top.source_url)
    (hvalid : ¬(su0 = "" ∨ validate_url su0 = false))
    (hadj1 : (schemeAdjust env (pyStrip query) su0 top.scheme_code).1 = su1)
    (hadj2 : (schemeAdjust env (pyStrip query) su0 top.scheme_code).2 = sc1)
    (hans : ans = candidateAnswer env.oracle (pyStrip query) top.document su1)
    (hflag : strContains (pyLower ans) "demo" = true ∨
             strContains (pyLower ans) "sample" = true) :
    answer_query env query = integrityAnswer sc1 ∧
    (answer_query env query).source_url = "" ∧
    (answer_query env query).confidence = "low" ∧
    (answer_query env query).answer ≠ ans := by
  have hfake : contains_fake_data ans = true := contains_fake_of_flag ans hflag
  subst hans
  have hmain : answer_query env query = integrityAnswer sc1 := by
    unfold answer_query
    rw [if_neg hq, hres]
    simp only [answerWithResults, answerWithTop]
    rw [← hsu0, if_neg hvalid]
    simp only [finishAnswer]
    rw [hadj1, hadj2, if_pos hfake]
  refine ⟨hmain, by rw [hmain]; rfl, by rw [hmain]; rfl, ?_⟩
  rw [hmain]
  intro heq
  have hmsg : (integrityAnswer sc1).answer =
      "I cannot provide an answer as the data may not be from official sources. Please verify the data has been scraped from the official Nippon India Mutual Fund website." :=
    rfl
  rw [hmsg] at heq
  rcases hflag with h | h
  · rw [← heq] at h
    exact absurd h (by decide)
  · rw [← heq] at h
    exact absurd h (by decide)

/-- C1 witness: a retrieval hit with a valid source, an oracle reply
containing "demo", and the refusal observed, via the theorem. -/
theorem c1_hallucination_guard_witness :
    answer_query
        ⟨[⟨"doc", "https://mf.nipponindiaim.com/f", "S7", some (mkRat 1 2)⟩],
         fun _ => none, some "Here is a demo answer"⟩ "what is the nav" =
      integrityAnswer "S7" ∧
    (answer_query
        ⟨[⟨"doc", "https://mf.nipponindiaim.com/f", "S7", some (mkRat 1 2)⟩],
         fun _ => none, some "Here is a demo answer"⟩ "what is the nav").source_url = "" ∧
    (answer_query
        ⟨[⟨"doc", "https://mf.nipponindiaim.com/f", "S7", some (mkRat 1 2)⟩],
         fun _ => none, some "Here is a demo answer"⟩ "what is the nav").confidence = "low" ∧
    (answer_query
        ⟨[⟨"doc", "https://mf.nipponindiaim.com/f", "S7", some (mkRat 1 2)⟩],
         fun _ => none, some "Here is a demo answer"⟩ "what is the nav").answer ≠
      "Here is a demo answer\n\nSource: https://mf.nipponindiaim.com/f" :=
  c1_hallucination_guard
    ⟨[⟨"doc", "https://mf.nipponindiaim.com/f", "S7", some (mkRat 1 2)⟩],
     fun _ => none, some "Here is a demo answer"⟩
    "what is the nav"
    ⟨"doc", "https://mf.nipponindiaim.com/f", "S7", some (mkRat 1 2)⟩ []
    "https://mf.nipponindiaim.com/f" "https://mf.nipponindiaim.com/f" "S7"
    "Here is a demo answer\n\nSource: https://mf.nipponindiaim.com/f"
    (by decide) rfl (by decide) (by decide) (by decide) (by decide)
    (by decide) (Or.inl (by decide))

/-! ### Claim C2 -/

/-- C2 failing input: the scheme-name branch with falsy field_sources copies
the stored record's metadata source_url into the returned QueryAnswer with no
validation; with a stored record pointing at an off-domain URL the result
carries a non-empty source_url that fails validate_url, breaking the
source-domain invariant. -/
theorem c2_unvalidated_scheme_source :
    (answer_query
        ⟨[⟨"doc", "https://mf.nipponindiaim.com/f", "S1", some (mkRat 1 2)⟩],
         fun n => if n = "Nippon India Growth Fund" then
             some ⟨⟨"S999", "https://evil.com/page"⟩, []⟩ else none,
         some "The NAV is 10. Source: https://mf.nipponindiaim.com/f"⟩
        "what is the nav of Nippon India Growth Fund?").source_url =
      "https://evil.com/page" ∧
    validate_url "https://evil.com/page" = false ∧
    "https://evil.com/page" ≠ "" := by
  refine ⟨by decide, by decide, by decide⟩

/-! ### Claims C6 and C7 -/

/-- Modelled from the spec's wording for comparison: the number of
non-whitespace characters of the query. -/
def nonWhitespaceCount (s : String) : Nat :=
  (s.data.filter (fun c => ¬ isPySpace c)).length

/-- C6 counterexample: the query consisting of the three characters
a space b has only 2 non-whitespace characters, yet answer_query does not
return the short-query guidance — it proceeds to retrieval (here: empty
index, so the no-information answer), because the code tests
len(query.strip()) which counts the inner space. -/
theorem c6_counterexample_inner_space :
    nonWhitespaceCount "a b" = 2 ∧
    answer_query ⟨[], fun _ => none, none⟩ "a b" = noResultsAnswer ∧
    noResultsAnswer ≠ shortQueryAnswer := by
  refine ⟨by decide, by decide, by decide⟩

/-- C6 (amended): for every query that is empty or whose stripped form has
fewer than 3 characters, answer_query returns the low-confidence guidance
answer, independently of the environment — so without consulting the
retrieval index, the stored schemes or the oracle. -/
theorem c6_short_query (env : Env) (query : String)
    (h : query = "" ∨ (pyStrip query).length < 3) :
    answer_query env query = shortQueryAnswer := by
  unfold answer_query
  rw [if_pos h]

/-- C6 witness: the amended statement at the two-character query hi. -/
theorem c6_short_query_witness :
    (pyStrip "hi").length < 3 ∧
    answer_query ⟨[], fun _ => none, none⟩ "hi" = shortQueryAnswer :=
  ⟨by decide, c6_short_query ⟨[], fun _ => none, none⟩ "hi" (Or.inr (by decide))⟩

theorem validate_url_ne_empty {u : String} (h : validate_url u = true) :
    u ≠ "" := by
  intro h0
  subst h0
  exact absurd h (by decide)

theorem firstValidField_valid {fs : List (String × String)} {u : String}
    (h : firstValidField fs = some u) : validate_url u = true := by
  unfold firstValidField at h
  obtain ⟨f, _, hfu⟩ := List.exists_of_findSome?_eq_some h
  cases hd : dictLookup f fs with
  | none =>
      rw [hd] at hfu
      cases hfu
  | some v =>
      simp only [hd] at hfu
      split at hfu
      · cases hfu
        assumption
      · cases hfu

theorem schemeAdjust_fst_ne_empty (env : Env) (q su sc : String)
    (hsu : su ≠ "")
    (hlookup : ∀ n s, env.schemeLookup n = some s → s.metadata.source_url ≠ "") :
    (schemeAdjust env q su sc).1 ≠ "" := by
  unfold schemeAdjust
  cases hx : extract_scheme_name q with
  | none => exact hsu
  | some name =>
      show (schemeAdjustLookup env name su sc).1 ≠ ""
      unfold schemeAdjustLookup
      cases hl : env.schemeLookup name with
      | none => exact hsu
      | some scheme =>
          show (schemeAdjustScheme scheme su).1 ≠ ""
          unfold schemeAdjustScheme
          by_cases hfs : scheme.field_sources ≠ []
          · rw [if_pos hfs]
            cases hv : firstValidField scheme.field_sources with
            | none => exact hsu
            | some u => exact validate_url_ne_empty (firstValidField_valid hv)
          · rw [if_neg hfs]
            exact hlookup name scheme hl

theorem determine_confidence_mem (results : List SearchResult) (ans : String) :
    determine_confidence results ans = "low" ∨
    determine_confidence results ans = "medium" ∨
    determine_confidence results ans = "high" := by
  cases results with
  | nil => exact Or.inl rfl
  | cons top rest =>
      simp only [determine_confidence]
      split_ifs <;> simp

theorem answer_query_good (env : Env) (query : String)
    (hlookup : ∀ n s, env.schemeLookup n = some s → s.metadata.source_url ≠ "") :
    ((answer_query env query).confidence = "low" ∨
     (answer_query env query).confidence = "medium" ∨
     (answer_query env query).confidence = "high") ∧
    ((answer_query env query).source_url = "" →
     (answer_query env query).confidence = "low") := by
  unfold answer_query
  by_cases hq : (query = "" ∨ (pyStrip query).length < 3)
  · rw [if_pos hq]
    exact ⟨Or.inl rfl, fun _ => rfl⟩
  · rw [if_neg hq]
    cases hres : env.searchResults with
    | nil =>
        simp only [answerWithResults]
        exact ⟨Or.inl rfl, fun _ => rfl⟩
    | cons top rest =>
        simp only [answerWithResults, answerWithTop]
        by_cases hsu : (pickSourceUrl (top :: rest) top.source_url = "" ∨
            validate_url (pickSourceUrl (top :: rest) top.source_url) = false)
        · rw [if_pos hsu]
          exact ⟨Or.inl rfl, fun _ => rfl⟩
        · rw [if_neg hsu]
          simp only [finishAnswer]
          by_cases hfake : contains_fake_data (candidateAnswer env.oracle
              (pyStrip query) top.document
              (schemeAdjust env (pyStrip query)
                (pickSourceUrl (top :: rest) top.source_url) top.scheme_code).1) = true
          · rw [if_pos hfake]
            exact ⟨Or.inl rfl, fun _ => rfl⟩
          · rw [if_neg hfake]
            constructor
            · show determine_confidence (top :: rest) _ = "low" ∨
                determine_confidence (top :: rest) _ = "medium" ∨
                determine_confidence (top :: rest) _ = "high"
              exact determine_confidence_mem _ _
            · intro hempty
              exact absurd hempty (schemeAdjust_fst_ne_empty env _ _ _
                (fun h0 => hsu (Or.inl h0)) hlookup)

/-- C7: assuming the pydantic invariant that stored records carry a
non-empty (HttpUrl) metadata source_url, every answer_query call returns a
well-formed QueryAnswer — by construction of the embedding it is total over
every retrieval, store and oracle outcome, exceptions included — whose
confidence is one of low, medium, high, and every failure branch (exactly
the branches that return an empty source_url) has confidence low; the
backend wrapper returns the same answer on success and a low-confidence
error answer when construction fails. -/
theorem c7_query_path_total (env : Env) (query errText : String)
    (hlookup : ∀ n s, env.schemeLookup n = some s → s.metadata.source_url ≠ "") :
    ((answer_query env query).confidence = "low" ∨
     (answer_query env query).confidence = "medium" ∨
     (answer_query env query).confidence = "high") ∧
    ((answer_query env query).source_url = "" →
     (answer_query env query).confidence = "low") ∧
    backend_answer_query (some env) errText query = answer_query env query ∧
    (backend_answer_query none errText query).source_url = "" ∧
    (backend_answer_query none errText query).confidence = "low" := by
  have h := answer_query_good env query hlookup
  exact ⟨h.1, h.2, rfl, rfl, rfl⟩

/-- C7 witness: the theorem at a concrete environment with an empty index
and a failing oracle. -/
theorem c7_query_path_total_witness :
    ((answer_query ⟨[], fun _ => none, none⟩ "hi").confidence = "low" ∨
     (answer_query ⟨[], fun _ => none, none⟩ "hi").confidence = "medium" ∨
     (answer_query ⟨[], fun _ => none, none⟩ "hi").confidence = "high") ∧
    ((answer_query ⟨[], fun _ => none, none⟩ "hi").source_url = "" →
     (answer_query ⟨[], fun _ => none, none⟩ "hi").confidence = "low") ∧
    backend_answer_query (some ⟨[], fun _ => none, none⟩) "boom" "hi" =
      answer_query ⟨[], fun _ => none, none⟩ "hi" ∧
    (backend_answer_query none "boom" "hi").source_url = "" ∧
    (backend_answer_query none "boom" "hi").confidence = "low" :=
  c7_query_path_total ⟨[], fun _ => none, none⟩ "hi" "boom"
    (fun _ _ h => Option.noConfusion h)

/-! ### Claims C9 and C10 -/

theorem chunkLoopF_succ (sc ct su : String) (md : List (String × String))
    (content : List Char) (csize overlap fuel start idx : Nat) :
    chunkLoopF sc ct su md content csize overlap (fuel + 1) start idx =
      if start < content.length then
        Option.map
          (fun rest =>
            ⟨chunk_id_of sc ct idx, sc, ct,
              String.mk ((content.drop start).take csize), md, su⟩ :: rest)
          (chunkLoopF sc ct su md content csize overlap fuel
            (start + csize - overlap) (idx + 1))
      else some [] := rfl

theorem chunkLoopF_total (sc ct su : String) (md : List (String × String))
    (content : List Char) (csize overlap : Nat) (hlt : overlap < csize) :
    ∀ fuel start idx, content.length ≤ start + fuel * (csize - overlap) →
      ∃ cs, chunkLoopF sc ct su md content csize overlap (fuel + 1) start idx = some cs := by
  intro fuel
  induction fuel with
  | zero =>
      intro start idx hle
      refine ⟨[], ?_⟩
      rw [chunkLoopF_succ, if_neg (by omega)]
  | succ f ih =>
      intro start idx hle
      by_cases hs : start < content.length
      · obtain ⟨rest, hrest⟩ := ih (start + csize - overlap) (idx + 1) (by
          have hmul : (f + 1) * (csize - overlap) = f * (csize - overlap) + (csize - overlap) := by
            rw [Nat.succ_mul]
          rw [hmul] at hle
          omega)
        refine ⟨⟨chunk_id_of sc ct idx, sc, ct,
          String.mk ((content.drop start).take csize), md, su⟩ :: rest, ?_⟩
        rw [chunkLoopF_succ, if_pos hs, hrest]
        rfl
      · refine ⟨[], ?_⟩
        rw [chunkLoopF_succ, if_neg hs]

theorem chunkLoopF_get? (sc ct su : String) (md : List (String × String))
    (content : List Char) (csize overlap : Nat) (hlt : overlap < csize) :
    ∀ fuel start idx cs,
      chunkLoopF sc ct su md content csize overlap fuel start idx = some cs →
      ∀ i c, cs.get? i = some c →
        c.chunk_id = chunk_id_of sc ct (idx + i) ∧
        c.content = String.mk ((content.drop (start + (csize - overlap) * i)).take csize) := by
  intro fuel
  induction fuel with
  | zero =>
      intro start idx cs h
      exact absurd h (by simp [chunkLoopF])
  | succ f ih =>
      intro start idx cs h i c hg
      rw [chunkLoopF_succ] at h
      by_cases hs : start < content.length
      · rw [if_pos hs] at h
        cases hrec : chunkLoopF sc ct su md content csize overlap f
            (start + csize - overlap) (idx + 1) with
        | none =>
            rw [hrec] at h
            cases h
        | some rest =>
            rw [hrec] at h
            simp only [Option.map_some', Option.some.injEq] at h
            subst h
            cases i with
            | zero =>
                cases hg
                refine ⟨by simp, by simp⟩
            | succ j =>
                simp only [List.get?_cons_succ] at hg
                have hrecp := ih (start + csize - overlap) (idx + 1) rest hrec j c hg
                have hstep : start + csize - overlap = start + (csize - overlap) := by
                  omega
                refine ⟨?_, ?_⟩
                · rw [hrecp.1]
                  congr 1
                  omega
                · rw [hrecp.2]
                  have harith : start + csize - overlap + (csize - overlap) * j =
                      start + (csize - overlap) * (j + 1) := by
                    rw [Nat.mul_succ, hstep]
                    generalize (csize - overlap) * j = k
                    omega
                  rw [harith]
      · rw [if_neg hs] at h
        cases h
        cases hg

theorem chunkLoopF_ids (sc ct su su' : String) (md md' : List (String × String))
    (content : List Char) (csize overlap : Nat) :
    ∀ fuel start idx,
      Option.map (List.map TextChunk.chunk_id)
        (chunkLoopF sc ct su md content csize overlap fuel start idx) =
      Option.map (List.map TextChunk.chunk_id)
        (chunkLoopF sc ct su' md' content csize overlap fuel start idx) := by
  intro fuel
  induction fuel with
  | zero =>
      intro start idx
      rfl
  | succ f ih =>
      intro start idx
      have hrec := ih (start + csize - overlap) (idx + 1)
      rw [chunkLoopF_succ, chunkLoopF_succ]
      by_cases hs : start < content.length
      · rw [if_pos hs, if_pos hs]
        cases h1 : chunkLoopF sc ct su md content csize overlap f
            (start + csize - overlap) (idx + 1) with
        | none =>
            cases h2 : chunkLoopF sc ct su' md' content csize overlap f
                (start + csize - overlap) (idx + 1) with
            | none => rfl
            | some r2 =>
                rw [h1, h2] at hrec
                cases hrec
        | some r1 =>
            cases h2 : chunkLoopF sc ct su' md' content csize overlap f
                (start + csize - overlap) (idx + 1) with
            | none =>
                rw [h1, h2] at hrec
                cases hrec
            | some r2 =>
                rw [h1, h2] at hrec
                simp only [Option.map_some', Option.some.injEq] at hrec ⊢
                simp [hrec]
      · rw [if_neg hs, if_neg hs]

/-- C9: every chunk create_text_chunks returns carries the deterministic
hash id md5(scheme_code_chunk_type_index) for its sequence index, and its
content is the window of CHUNK_SIZE = 1000 characters starting at
(CHUNK_SIZE - CHUNK_OVERLAP) = 800 times its index (so window starts advance
by 800 and consecutive windows overlap by 200 characters); and the chunk_id
sequence does not depend on the source_url or metadata arguments, so
identical (scheme_code, chunk_type, content) inputs always reproduce the
same chunk_id sequence. -/
theorem c9_chunk_ids_and_windows (sc content ct su : String)
    (md : List (String × String)) :
    (∀ i c, (create_text_chunks sc content ct su md).get? i = some c →
        c.chunk_id = chunk_id_of sc ct i ∧
        c.content = String.mk ((content.data.drop
          ((CHUNK_SIZE - CHUNK_OVERLAP) * i)).take CHUNK_SIZE)) ∧
    (∀ su' md', (create_text_chunks sc content ct su md).map TextChunk.chunk_id =
        (create_text_chunks sc content ct su' md').map TextChunk.chunk_id) := by
  have hfuel : ∀ (l : List Char),
      l.length ≤ 0 + l.length * (CHUNK_SIZE - CHUNK_OVERLAP) := by
    intro l
    have := Nat.le_mul_of_pos_right l.length
      (show 0 < CHUNK_SIZE - CHUNK_OVERLAP by decide)
    omega
  constructor
  · intro i c hg
    unfold create_text_chunks at hg
    obtain ⟨cs, hcs⟩ := chunkLoopF_total sc ct su md content.data
      CHUNK_SIZE CHUNK_OVERLAP (by decide) content.data.length 0 0
      (hfuel content.data)
    rw [hcs] at hg
    simp only [Option.getD_some] at hg
    have := chunkLoopF_get? sc ct su md content.data CHUNK_SIZE CHUNK_OVERLAP
      (by decide) (content.data.length + 1) 0 0 cs hcs i c hg
    simpa using this
  · intro su' md'
    have hids := chunkLoopF_ids sc ct su su' md md' content.data
      CHUNK_SIZE CHUNK_OVERLAP (content.data.length + 1) 0 0
    unfold create_text_chunks
    cases h1 : chunkLoopF sc ct su md content.data CHUNK_SIZE CHUNK_OVERLAP
        (content.data.length + 1) 0 0 with
    | none =>
        cases h2 : chunkLoopF sc ct su' md' content.data CHUNK_SIZE CHUNK_OVERLAP
            (content.data.length + 1) 0 0 with
        | none => rfl
        | some r2 =>
            rw [h1, h2] at hids
            cases hids
    | some r1 =>
        cases h2 : chunkLoopF sc ct su' md' content.data CHUNK_SIZE CHUNK_OVERLAP
            (content.data.length + 1) 0 0 with
        | none =>
            rw [h1, h2] at hids
            cases hids
        | some r2 =>
            rw [h1, h2] at hids
            simp only [Option.map_some', Option.some.injEq] at hids
            simpa using hids

set_option maxRecDepth 40000 in
/-- C9 witness: the theorem applied to a concrete one-chunk input, with the
chunk evaluated by decide. -/
theorem c9_chunk_ids_and_windows_witness :
    ((create_text_chunks "S1" "hello" "scheme" "u" []).get? 0 =
      some ⟨chunk_id_of "S1" "scheme" 0, "S1", "scheme", "hello", [], "u"⟩) ∧
    ((⟨chunk_id_of "S1" "scheme" 0, "S1", "scheme", "hello", [], "u"⟩ :
        TextChunk).chunk_id = chunk_id_of "S1" "scheme" 0 ∧
      (⟨chunk_id_of "S1" "scheme" 0, "S1", "scheme", "hello", [], "u"⟩ :
        TextChunk).content = String.mk (("hello".data.drop
          ((CHUNK_SIZE - CHUNK_OVERLAP) * 0)).take CHUNK_SIZE)) :=
  ⟨by decide, (c9_chunk_ids_and_windows "S1" "hello" "scheme" "u" []).1 0 _ (by decide)⟩

/-- C10: the configuration satisfies CHUNK_OVERLAP < CHUNK_SIZE; whenever
overlap < chunk_size the chunking loop terminates within content-length + 1
iterations from any loop state (the window start strictly advances by
chunk_size - overlap > 0), and in particular create_text_chunks always
returns the finite list the terminated loop produced. -/
theorem c10_chunk_loop_terminates :
    CHUNK_OVERLAP < CHUNK_SIZE ∧
    (∀ (csize overlap : Nat) (sc ct su : String) (md : List (String × String))
        (content : List Char) (start idx : Nat), overlap < csize →
      ∃ cs, chunkLoopF sc ct su md content csize overlap
        (content.length + 1) start idx = some cs) ∧
    (∀ (sc content ct su : String) (md : List (String × String)),
      ∃ cs, chunkLoopF sc ct su md content.data CHUNK_SIZE CHUNK_OVERLAP
          (content.data.length + 1) 0 0 = some cs ∧
        create_text_chunks sc content ct su md = cs) := by
  refine ⟨by decide, ?_, ?_⟩
  · intro csize overlap sc ct su md content start idx hlt
    refine chunkLoopF_total sc ct su md content csize overlap hlt
      content.length start idx ?_
    have := Nat.le_mul_of_pos_right content.length
      (show 0 < csize - overlap by omega)
    omega
  · intro sc content ct su md
    obtain ⟨cs, hcs⟩ := chunkLoopF_total sc ct su md content.data
      CHUNK_SIZE CHUNK_OVERLAP (by decide) content.data.length 0 0 (by
        have := Nat.le_mul_of_pos_right content.data.length
          (show 0 < CHUNK_SIZE - CHUNK_OVERLAP by decide)
        omega)
    refine ⟨cs, hcs, ?_⟩
    unfold create_text_chunks
    rw [hcs]
    rfl

/-- C10 witness: the termination statement applied at the configured sizes
on a concrete content. -/
theorem c10_chunk_loop_terminates_witness :
    ∃ cs, chunkLoopF "S1" "scheme" "u" [] "hello world".data 1000 200
      ("hello world".data.length + 1) 0 0 = some cs :=
  c10_chunk_loop_terminates.2.1 1000 200 "S1" "scheme" "u" [] "hello world".data
    0 0 (by decide)

/-! ### Claim C5 -/

/-- C5: for a positive stored NAV (the caller only validates truthy NAVs,
and collected live values are nonnegative, so Python's division is defined
exactly where rational division is), the nav check is valid iff some
collected live value is within 1% relative difference of the stored one. -/
theorem c5_nav_tolerance (stored : ℚ) (page_text : String) (_pos : 0 < stored) :
    (validate_nav stored page_text).valid = true ↔
      ∃ v ∈ collectNavs page_text, |stored - v| / max stored v < 1/100 := by
  unfold validate_nav
  cases hf : collectNavs page_text with
  | nil => simp
  | cons a t =>
      rw [if_neg (by simp)]
      cases hfind : (a :: t).find? (fun v => navClose stored v) with
      | some v =>
          simp only
          constructor
          · intro _
            refine ⟨v, List.mem_of_find?_eq_some hfind, ?_⟩
            have hp := List.find?_some hfind
            simpa [navClose] using hp
          · intro _
            trivial
      | none =>
          simp only
          constructor
          · intro hco
            exact absurd hco (by simp)
          · rintro ⟨v, hv, hlt⟩
            have hnone := List.find?_eq_none.mp hfind v hv
            exact absurd (by simpa [navClose] using hlt) hnone

/-- C5 witness: the iff instantiated at stored NAV 100.00 against a page
carrying NAV 100.50 (and, by direct evaluation, the two threshold examples:
100.50 validates, 102.00 does not). -/
theorem c5_nav_tolerance_witness :
    ((0:ℚ) < 100) ∧
    ((validate_nav 100 "NAV: 100.50").valid = true ↔
      ∃ v ∈ collectNavs "NAV: 100.50", |(100:ℚ) - v| / max 100 v < 1/100) ∧
    (validate_nav 100 "NAV: 100.50").valid = true ∧
    (validate_nav 100 "NAV: 102.00").valid = false :=
  ⟨by norm_num, c5_nav_tolerance 100 "NAV: 100.50" (by norm_num),
   by decide, by decide⟩

/-! ### Claim C8 -/

/-- C8 counterexample: a page text that contains the substring
"AUM: ₹50000 Lakh" but whose leftmost AUM-pattern match is an earlier
"AUM: 800 Cr" extracts 800.0, not 500.0, so containment of the lakh substring
alone does not determine the result. -/
theorem c8_counterexample_earlier_match :
    strContains "AUM: 800 Cr AUM: ₹50000 Lakh" "AUM: ₹50000 Lakh" = true ∧
    extract_aum ⟨"AUM: 800 Cr AUM: ₹50000 Lakh", []⟩ = some 800 ∧
    extract_aum ⟨"AUM: 800 Cr AUM: ₹50000 Lakh", []⟩ ≠ some 500 := by
  refine ⟨by decide, by decide, by decide⟩

/-- C8 (amended): when the leftmost AUM-pattern match is the occurrence
"AUM: ₹50000 Lakh" — in particular for the page text equal to it — the
matched span mentions lakh, so the parsed 50000 is divided by 100 giving
500.0 crore; and a table row whose second cell holds no number ("N.A.")
yields null rather than raising. -/
theorem c8_lakh_conversion :
    extract_aum ⟨"AUM: ₹50000 Lakh", []⟩ = some 500 ∧
    extract_aum ⟨"irrelevant page text", [[["AUM", "N.A."]]]⟩ = none :=
  ⟨by decide, by decide⟩

/-! ### Claim C3 -/

/-- The "high" side-conditions of the confidence computation, as the spec
words them. -/
def highCond (top : SearchResult) (answer : String) : Prop :=
  (∃ d, top.distance = some d ∧ d < 3/10) ∧
    has_source_url answer = true ∧ contains_fake_data answer = false

/-- Distance strictly above the 0.7 threshold. -/
def farCond (top : SearchResult) : Prop :=
  ∃ d, top.distance = some d ∧ 7/10 < d

def resultAt08 : SearchResult :=
  ⟨"Scheme Name: X", "https://mf.nipponindiaim.com/a", "S1", some (4/5)⟩

/-- C3 counterexample: with two retrieval results whose top distance is 0.8
(> 0.7), the computed confidence is "medium", not "low" — the two-result
branch fires before the distance > 0.7 branch — so "low whenever the top
distance is > 0.7" fails. -/
theorem c3_counterexample_two_results :
    resultAt08.distance = some (4/5) ∧ ((7:ℚ)/10 < 4/5) ∧
    determine_confidence [resultAt08, resultAt08] "answer text" = "medium" ∧
    determine_confidence [resultAt08, resultAt08] "answer text" ≠ "low" := by
  refine ⟨rfl, by norm_num, by decide, by decide⟩

theorem distLt_iff (top : SearchResult) :
    distLt top.distance (3/10) = true ↔ ∃ d, top.distance = some d ∧ d < 3/10 := by
  cases h : top.distance <;> simp [distLt, h]

theorem distGt_iff (top : SearchResult) :
    distGt top.distance (7/10) = true ↔ farCond top := by
  cases h : top.distance <;> simp [distGt, farCond, h]

/-- C3 (amended): for a nonempty result list, confidence is "high" exactly
when the top distance is known and < 0.3, the answer cites a source and the
hallucination guard passes; it is "low" exactly when the high conditions
fail, there is only one result, and the distance is known and > 0.7 (so
distance 0.8 with a single result gives "low", but distance 0.8 with two or
more results gives "medium"); it is "medium" in every other case. -/
theorem c3_confidence_characterization (top : SearchResult)
    (rest : List SearchResult) (answer : String) :
    (determine_confidence (top :: rest) answer = "high" ↔ highCond top answer) ∧
    (determine_confidence (top :: rest) answer = "low" ↔
      ¬ highCond top answer ∧ rest = [] ∧ farCond top) ∧
    (determine_confidence (top :: rest) answer = "medium" ↔
      ¬ highCond top answer ∧ ¬(rest = [] ∧ farCond top)) := by
  have hH : (distLt top.distance (3/10) && has_source_url answer &&
      !contains_fake_data answer) = true ↔ highCond top answer := by
    simp only [Bool.and_eq_true, Bool.not_eq_true', highCond, distLt_iff]
    tauto
  simp only [determine_confidence]
  split_ifs with h1 h2 h3
  · rw [hH] at h1
    refine ⟨by simp [h1], ?_, ?_⟩ <;> simp [h1]
  · rw [hH] at h1
    have hrest : rest ≠ [] := by
      cases rest with
      | nil => simp at h2
      | cons a t => simp
    refine ⟨?_, ?_, ?_⟩
    · constructor
      · intro h
        exact absurd h (by decide)
      · intro h
        exact absurd h h1
    · constructor
      · intro h
        exact absurd h (by decide)
      · rintro ⟨-, hnil, -⟩
        exact absurd hnil hrest
    · simp [h1, hrest]
  · rw [hH] at h1
    rw [distGt_iff] at h3
    have hrest : rest = [] := by
      cases rest with
      | nil => rfl
      | cons a t => exact absurd (by simp) h2
    refine ⟨?_, ?_, ?_⟩
    · constructor
      · intro h
        exact absurd h (by decide)
      · intro h
        exact absurd h h1
    · simp [h1, hrest, h3]
    · constructor
      · intro h
        exact absurd h (by decide)
      · rintro ⟨-, hcon⟩
        exact absurd ⟨hrest, h3⟩ hcon
  · rw [hH] at h1
    rw [distGt_iff] at h3
    refine ⟨?_, ?_, ?_⟩
    · constructor
      · intro h
        exact absurd h (by decide)
      · intro h
        exact absurd h h1
    · constructor
      · intro h
        exact absurd h (by decide)
      · rintro ⟨-, -, hfar⟩
        exact absurd hfar h3
    · simp [h1]
      rintro rfl
      exact h3

/-! ### Claim C4 -/

/-- C4 counterexample: for the URL https with host mf.nipponindiaim.com and
an explicit port 8080, the host component equals an allow-listed domain, yet
validate_url returns false (it compares the whole netloc, port included), so
validate_url is not "true iff the host equals or is a subdomain of an
allow-listed domain". -/
theorem c4_counterexample_port :
    hostOf "https://mf.nipponindiaim.com:8080/page" = some "mf.nipponindiaim.com" ∧
    "mf.nipponindiaim.com" ∈ ALLOWED_DOMAINS ∧
    validate_url "https://mf.nipponindiaim.com:8080/page" = false := by
  refine ⟨by decide, by decide, by decide⟩

/-- C4 (amended): validate_url url is true iff urlsplit extracts a netloc
from url (no ValueError) and the lowercased netloc — the full authority
component, userinfo and port included — is equal to an allow-listed domain or
ends with '.' followed by one; all other inputs, unparseable ones included,
give false (the function is total, it never raises). -/
theorem c4_validate_url_iff (url : String) :
    validate_url url = true ↔
      ∃ nl, urlsplitNetloc url = some nl ∧
        ∃ d ∈ ALLOWED_DOMAINS,
          pyLower nl = d ∨ ('.' :: d.data) <:+ (pyLower nl).data := by
  unfold validate_url
  cases h : urlsplitNetloc url with
  | none => simp
  | some nl =>
      simp only [List.any_eq_true, Bool.or_eq_true, beq_iff_eq,
        List.isSuffixOf_iff_suffix, Option.some.injEq]
      constructor
      · rintro ⟨d, hd, hcase⟩
        refine ⟨nl, rfl, d, hd, ?_⟩
        rcases hcase with hEq | hSuf
        · left
          exact String.ext hEq
        · right
          exact hSuf
      · rintro ⟨nl', hnl', d, hd, hcase⟩
        cases hnl'
        refine ⟨d, hd, ?_⟩
        rcases hcase with hEq | hSuf
        · left
          exact congrArg String.data hEq
        · right
          exact hSuf

end NPbot
